import Mathlib

/-!
Shallow embedding of `src/src/services/particles.service.ts` (ParticleService):
a Three.js galaxy particle effect with an FPS-gated animation loop, a debounced
resize handler, a throttled mouse-move handler, and a progress-driven rotation
speed. Numbers are modelled as rationals; the transcendental parts (cos/sin/pi)
as reals.
-/

namespace ParticleService

/-- Constant `MAX_WIDTH = 1920` (line 30). -/
def MAX_WIDTH : ℚ := 1920

/-- Constant `MAX_HEIGHT = 1080` (line 31). -/
def MAX_HEIGHT : ℚ := 1080

/-- Constant `MOUSE_MOVE_THROTTLE_MS = 16` (line 39). -/
def MOUSE_MOVE_THROTTLE_MS : ℚ := 16

/-- Field `fps = 60` (line 42). -/
def fps : ℚ := 60

/-- Field `fpsInterval = 1000 / this.fps` (line 43). -/
def fpsInterval : ℚ := 1000 / fps

/-- Field `particleCount = 4500` (line 22). -/
def particleCount : ℕ := 4500

/- ------------------------------------------------------------------
   Event-listener registry model for init/destroy (C1).
   JavaScript function identity: `f.bind(this)` returns a fresh function
   object, never reference-equal to `f` itself.  We model function
   identities as an inductive type where `boundFn f` is the object
   produced by `f.bind(this)`, distinct from `f` by construction.
   ------------------------------------------------------------------ -/

/-- Identities of the handler function objects that appear in the service:
the stored arrow-function field `debouncedOnResize` (line 32), the raw class
method `onMouseMove` (line 181), and `boundFn f` for the fresh object returned
by `f.bind(this)`. -/
inductive Handler where
  | debouncedOnResize : Handler
  | onMouseMoveMethod : Handler
  | boundFn : Handler → Handler
deriving DecidableEq

/-- The window's listener lists for the two event types the service uses. -/
structure Listeners where
  resize : List Handler
  mousemove : List Handler
deriving DecidableEq

/-- A window with no listeners registered. -/
def emptyListeners : Listeners := ⟨[], []⟩

/-- `window.addEventListener('resize', h)`: appends `h` to the resize list. -/
def addResizeListener (l : Listeners) (h : Handler) : Listeners :=
  { l with resize := l.resize ++ [h] }

/-- `window.addEventListener('mousemove', h)`: appends `h` to the mousemove list. -/
def addMousemoveListener (l : Listeners) (h : Handler) : Listeners :=
  { l with mousemove := l.mousemove ++ [h] }

/-- `window.removeEventListener('resize', h)`: removes the first listener
reference-equal to `h`, a no-op if none matches (DOM semantics). -/
def removeResizeListener (l : Listeners) (h : Handler) : Listeners :=
  { l with resize := l.resize.erase h }

/-- `window.removeEventListener('mousemove', h)`: removes the first listener
reference-equal to `h`, a no-op if none matches (DOM semantics). -/
def removeMousemoveListener (l : Listeners) (h : Handler) : Listeners :=
  { l with mousemove := l.mousemove.erase h }

/-- The listener registrations performed by `init` (lines 78-79):
`addEventListener('resize', this.debouncedOnResize)` and
`addEventListener('mousemove', this.onMouseMove.bind(this))` — the latter
registers the fresh bound object, not the raw method. -/
def initListeners (l : Listeners) : Listeners :=
  addMousemoveListener (addResizeListener l Handler.debouncedOnResize)
    (Handler.boundFn Handler.onMouseMoveMethod)

/-- The listener deregistrations performed by `destroy` (lines 233, 236):
`removeEventListener('resize', this.debouncedOnResize)` and
`removeEventListener('mousemove', this.onMouseMove)` — the latter passes the
raw method, not the bound object that was registered. -/
def destroyListeners (l : Listeners) : Listeners :=
  removeMousemoveListener (removeResizeListener l Handler.debouncedOnResize)
    Handler.onMouseMoveMethod

/- ------------------------------------------------------------------
   Resize handler (C2), lines 169-179.
   ------------------------------------------------------------------ -/

/-- `onResize` output-surface dimensions (lines 173-174):
`newWidth = min(window.innerWidth, MAX_WIDTH)`,
`newHeight = min(window.innerHeight, MAX_HEIGHT)`. -/
def onResizeDims (w h : ℚ) : ℚ × ℚ :=
  (min w MAX_WIDTH, min h MAX_HEIGHT)

/-- The camera aspect ratio set by `onResize` (line 176):
`camera.aspect = newWidth / newHeight`. -/
def cameraAspectAfterResize (w h : ℚ) : ℚ :=
  (onResizeDims w h).1 / (onResizeDims w h).2

/- ------------------------------------------------------------------
   Progress / target speed (C3), lines 89-91 and 208-209.
   ------------------------------------------------------------------ -/

/-- `setProgress(p)` simply stores `p` (lines 89-91); here the stored field. -/
def setProgress (_stored p : ℚ) : ℚ := p

/-- `isProcessing = this.progress > 0 && this.progress < 100` (line 208). -/
def isProcessing (p : ℚ) : Bool :=
  decide (0 < p) && decide (p < 100)

/-- `targetSpeed = isProcessing ? 0.05 : 0.001` (line 209). -/
def targetSpeedOf (p : ℚ) : ℚ :=
  if isProcessing p then 0.05 else 0.001

/- ------------------------------------------------------------------
   Frame scheduler (C4, C5), lines 193-204.
   `Date.now()` timestamps and the rebased `then` field live in ℚ;
   JavaScript `%` on positive operands is truncated (= floored) division.
   ------------------------------------------------------------------ -/

/-- Truncation toward zero of a rational, as JavaScript number-to-integer
truncation behaves inside `%`. -/
def ratTrunc (q : ℚ) : ℤ :=
  if 0 ≤ q then ⌊q⌋ else ⌈q⌉

/-- JavaScript `x % y`: `x - y * trunc(x / y)`. -/
def jsMod (x y : ℚ) : ℚ :=
  x - y * ratTrunc (x / y)

/-- Result of one `animate` callback: whether `requestAnimationFrame` was
invoked for the next callback, the new value of the `then` field, and whether
the gated frame work ran. -/
structure FrameResult where
  nextScheduled : Bool
  thenTime : ℚ
  workDone : Bool
deriving DecidableEq

/-- One invocation of `animate` (lines 193-204) as a function of the `then`
field and the current time `now`: line 194 schedules the next callback
unconditionally; then `elapsed = now - then`; if `elapsed > fpsInterval` the
frame work runs and `then = now - (elapsed % fpsInterval)`, otherwise
everything is skipped. -/
def animateStep (thenTime now : ℚ) : FrameResult :=
  if now - thenTime > fpsInterval then
    { nextScheduled := true
      thenTime := now - jsMod (now - thenTime) fpsInterval
      workDone := true }
  else
    { nextScheduled := true
      thenTime := thenTime
      workDone := false }

/-- Run the scheduler over a list of callback times, returning the final
`then` field and the number of callbacks on which the frame work ran. -/
def runSched (thenTime : ℚ) (ts : List ℚ) : ℚ × ℕ :=
  match ts with
  | [] => (thenTime, 0)
  | t :: rest =>
      ((runSched (animateStep thenTime t).thenTime rest).1,
       (if (animateStep thenTime t).workDone then 1 else 0) +
         (runSched (animateStep thenTime t).thenTime rest).2)

/- ------------------------------------------------------------------
   Mouse-move handler (C8), lines 181-191.
   ------------------------------------------------------------------ -/

/-- The mouse-related state: `lastMouseMoveTime`, `mouseX`, `mouseY`
(lines 18-19, 38). -/
structure MouseState where
  last : ℚ
  mouseX : ℚ
  mouseY : ℚ
deriving DecidableEq

/-- One raw mousemove event (lines 181-191): if
`now - lastMouseMoveTime < MOUSE_MOVE_THROTTLE_MS` the event is dropped;
otherwise `lastMouseMoveTime = now`, `mouseX = (clientX / innerWidth) * 2 - 1`
and `mouseY = -(clientY / innerHeight) * 2 + 1`. -/
def onMouseMove (s : MouseState) (now clientX clientY w h : ℚ) : MouseState :=
  if now - s.last < MOUSE_MOVE_THROTTLE_MS then s
  else
    { last := now
      mouseX := (clientX / w) * 2 - 1
      mouseY := -(clientY / h) * 2 + 1 }

/- ------------------------------------------------------------------
   Rotation-speed smoothing and vertical-axis rotation (C9, C10),
   lines 24-26 and 208-212.
   ------------------------------------------------------------------ -/

/-- `currentRotationSpeed` together with the mesh rotation about the vertical
axis, `particlesMesh.rotation.y`. -/
structure MotionState where
  speed : ℚ
  rotY : ℚ
deriving DecidableEq

/-- Initial motion state: `currentRotationSpeed = 0.001` (line 25) and the
mesh rotation starts at 0 (Three.js default). -/
def initMotion : MotionState := ⟨0.001, 0⟩

/-- The per-frame rotation update (lines 208-212), parameterised by the stored
progress value `p`:
`currentRotationSpeed += (targetSpeed - currentRotationSpeed) * 0.05` and then
`particlesMesh.rotation.y += currentRotationSpeed`. -/
def updateMotion (s : MotionState) (p : ℚ) : MotionState :=
  let speed := s.speed + (targetSpeedOf p - s.speed) * 0.05
  { speed := speed, rotY := s.rotY + speed }

/-- A run of frame updates; the list entry for each frame is the progress
value stored (by the latest `setProgress`) when that frame runs, so arbitrary
interleavings of `setProgress` calls with frames are covered. -/
def runMotion (s : MotionState) (ps : List ℚ) : MotionState :=
  ps.foldl updateMotion s

/- ------------------------------------------------------------------
   Point cloud generator (C6, C7), lines 114-148.
   ------------------------------------------------------------------ -/

/-- An RGB color with components as Three.js stores them (floats in [0,1]). -/
structure ColorRGB where
  r : ℚ
  g : ℚ
  b : ℚ
deriving DecidableEq

/-- `THREE.Color.lerp(c2, alpha)` applied componentwise:
`this.r += (color.r - this.r) * alpha` and likewise for g, b. -/
def lerpColor (c₁ c₂ : ColorRGB) (α : ℚ) : ColorRGB :=
  ⟨c₁.r + (c₂.r - c₁.r) * α,
   c₁.g + (c₂.g - c₁.g) * α,
   c₁.b + (c₂.b - c₁.b) * α⟩

/-- `colorInside = new THREE.Color(0xffbf00)` (line 122): components
`0xff/255, 0xbf/255, 0x00/255`. -/
def colorInside : ColorRGB := ⟨1, 191 / 255, 0⟩

/-- `colorOutside = new THREE.Color(0xffffff)` (line 123). -/
def colorOutside : ColorRGB := ⟨1, 1, 1⟩

/-- The `Math.random()` draws consumed for one particle, in source order
(lines 126-147): the radius draw, the magnitude and sign draws for each of
the three jitter axes, the y-spread draw, and the size draw. -/
structure ParticleRand where
  dRadius : ℚ
  dXmag : ℚ
  dXsign : ℚ
  dYmag : ℚ
  dYsign : ℚ
  dZmag : ℚ
  dZsign : ℚ
  dY : ℚ
  dSize : ℚ
deriving DecidableEq

/-- `Math.random() < 0.5 ? 1 : -1` — the per-axis jitter sign. -/
def signOf (d : ℚ) : ℚ := if d < 1 / 2 then 1 else -1

/-- `Math.random()` returns a value in [0,1). -/
def UnitRand (d : ℚ) : Prop := 0 ≤ d ∧ d < 1

/-- All nine draws for a particle lie in [0,1). -/
def ParticleRandValid (d : ParticleRand) : Prop :=
  UnitRand d.dRadius ∧ UnitRand d.dXmag ∧ UnitRand d.dXsign ∧
  UnitRand d.dYmag ∧ UnitRand d.dYsign ∧ UnitRand d.dZmag ∧
  UnitRand d.dZsign ∧ UnitRand d.dY ∧ UnitRand d.dSize

/-- The rational-valued data computed for particle `i` (lines 126-147); the
positions `x`, `z` additionally pass through cos/sin and are defined
separately over ℝ. -/
structure Particle where
  radius : ℚ
  spinAngle : ℚ
  branchCoeff : ℕ
  jitterX : ℚ
  jitterY : ℚ
  jitterZ : ℚ
  y : ℚ
  color : ColorRGB
  size : ℚ
deriving DecidableEq

/-- The loop body of `createGalaxySystem` for index `i` with draws `d`
(lines 126-147): `radius = rand * 200`, `spinAngle = radius * 0.05`,
branch coefficient `i % 3` (the branch angle is that coefficient times
`2π/3`), jitter `rand^3 * (±1) * 30` per axis,
`y = (rand - 0.5) * (radius * 0.2) + randomY`,
color `colorInside.clone().lerp(colorOutside, radius / 200)`,
`size = rand * 2`. -/
def genParticle (i : ℕ) (d : ParticleRand) : Particle :=
  let radius := d.dRadius * 200
  let jitterX := d.dXmag ^ 3 * signOf d.dXsign * 30
  let jitterY := d.dYmag ^ 3 * signOf d.dYsign * 30
  let jitterZ := d.dZmag ^ 3 * signOf d.dZsign * 30
  { radius := radius
    spinAngle := radius * 0.05
    branchCoeff := i % 3
    jitterX := jitterX
    jitterY := jitterY
    jitterZ := jitterZ
    y := (d.dY - 1 / 2) * (radius * 0.2) + jitterY
    color := lerpColor colorInside colorOutside (radius / 200)
    size := d.dSize * 2 }

/-- `branchAngle = (i % 3) * ((2 * Math.PI) / 3)` (line 128). -/
noncomputable def branchAngle (i : ℕ) : ℝ :=
  ((i % 3 : ℕ) : ℝ) * (2 * Real.pi / 3)

/-- `x = Math.cos(branchAngle + spinAngle) * radius + randomX` (line 134). -/
noncomputable def particleX (i : ℕ) (d : ParticleRand) : ℝ :=
  Real.cos (branchAngle i + ((genParticle i d).spinAngle : ℝ)) *
    ((genParticle i d).radius : ℝ) + ((genParticle i d).jitterX : ℝ)

/-- `z = Math.sin(branchAngle + spinAngle) * radius + randomZ` (line 136). -/
noncomputable def particleZ (i : ℕ) (d : ParticleRand) : ℝ :=
  Real.sin (branchAngle i + ((genParticle i d).spinAngle : ℝ)) *
    ((genParticle i d).radius : ℝ) + ((genParticle i d).jitterZ : ℝ)

/- ==================================================================
   Theorems
   ================================================================== -/

/-- A `bind` result is a distinct function object from the method it wraps:
no handler equals its own `boundFn` wrapper. -/
theorem boundFn_ne (h : Handler) : Handler.boundFn h ≠ h := by
  intro he
  have hs : sizeOf (Handler.boundFn h) = sizeOf h := congrArg sizeOf he
  simp at hs

/-- C1: the claim fails on the code. `init` registers
`this.onMouseMove.bind(this)` — a fresh function object — as the mousemove
listener, but `destroy` deregisters `this.onMouseMove`, the raw method, which
matches nothing; so after `init` followed by `destroy` the resize listener
list is empty but the bound mousemove handler is still registered and will
run on every subsequent mousemove event. -/
theorem destroy_leaves_mousemove_listener_registered :
    (destroyListeners (initListeners emptyListeners)).resize = [] ∧
    (destroyListeners (initListeners emptyListeners)).mousemove =
      [Handler.boundFn Handler.onMouseMoveMethod] ∧
    Handler.boundFn Handler.onMouseMoveMethod ≠ Handler.onMouseMoveMethod := by
  refine ⟨by decide, by decide, boundFn_ne _⟩

/-- C2 counterexample: for a 3840×1080 window the handler outputs 1920×1080,
whose aspect ratio 16/9 differs from the requested window aspect ratio 32/9
by 16/9 — far outside any floating-point tolerance — so the resize handler
does not always preserve the requested aspect ratio. -/
theorem onResize_aspect_counterexample :
    onResizeDims 3840 1080 = (1920, 1080) ∧
    cameraAspectAfterResize 3840 1080 ≠ 3840 / 1080 ∧
    |cameraAspectAfterResize 3840 1080 - 3840 / 1080| = 16 / 9 := by
  refine ⟨by norm_num [onResizeDims, MAX_WIDTH, MAX_HEIGHT], ?_, ?_⟩ <;>
    norm_num [cameraAspectAfterResize, onResizeDims, MAX_WIDTH, MAX_HEIGHT, abs]

/-- C2 (amended): for every window width and height the resize handler sets
output dimensions of at most 1920×1080, the camera aspect is set to the ratio
of the clamped output dimensions, and the window aspect ratio is preserved
exactly whenever neither dimension is clamped (width ≤ 1920 and
height ≤ 1080); when a dimension is clamped the output aspect ratio may
differ from the window's. -/
theorem onResize_clamped_dims (w h : ℚ) :
    (onResizeDims w h).1 ≤ 1920 ∧ (onResizeDims w h).2 ≤ 1080 ∧
    cameraAspectAfterResize w h = (onResizeDims w h).1 / (onResizeDims w h).2 ∧
    (w ≤ 1920 → h ≤ 1080 → onResizeDims w h = (w, h)) := by
  refine ⟨min_le_right _ _, min_le_right _ _, rfl, fun hw hh => ?_⟩
  simp [onResizeDims, MAX_WIDTH, MAX_HEIGHT, min_eq_left hw, min_eq_left hh]

/-- C2 witness: a 1600×900 window is not clamped and its aspect ratio is
preserved exactly. -/
theorem onResize_clamped_dims_witness :
    (onResizeDims 1600 900).1 ≤ 1920 ∧ (onResizeDims 1600 900).2 ≤ 1080 ∧
    cameraAspectAfterResize 1600 900 =
      (onResizeDims 1600 900).1 / (onResizeDims 1600 900).2 ∧
    onResizeDims 1600 900 = (1600, 900) := by
  have h := onResize_clamped_dims 1600 900
  exact ⟨h.1, h.2.1, h.2.2.1, h.2.2.2 (by norm_num) (by norm_num)⟩

/-- C3: `setProgress` stores its argument unvalidated; the frame update's
processing state is exactly `0 < p < 100`: the target speed is 0.05 precisely
when `0 < p ∧ p < 100`, so `p = 0` and `p = 100` yield the idle speed 0.001,
`p = 50` yields 0.05, and every value outside [0,100] also yields 0.001. -/
theorem setProgress_routing :
    (∀ stored p : ℚ, setProgress stored p = p) ∧
    (∀ p : ℚ, isProcessing p = true ↔ 0 < p ∧ p < 100) ∧
    (∀ p : ℚ, targetSpeedOf p = if 0 < p ∧ p < 100 then 0.05 else 0.001) ∧
    targetSpeedOf 0 = 0.001 ∧ targetSpeedOf 100 = 0.001 ∧
    targetSpeedOf 50 = 0.05 ∧
    (∀ p : ℚ, p ≤ 0 ∨ 100 ≤ p → targetSpeedOf p = 0.001) := by
  have hiff : ∀ p : ℚ, isProcessing p = true ↔ 0 < p ∧ p < 100 := by
    intro p; simp [isProcessing]
  have htgt : ∀ p : ℚ, targetSpeedOf p =
      if 0 < p ∧ p < 100 then 0.05 else 0.001 := by
    intro p
    by_cases hp : 0 < p ∧ p < 100
    · rw [targetSpeedOf, if_pos ((hiff p).mpr hp), if_pos hp]
    · rw [targetSpeedOf, if_neg (fun hb => hp ((hiff p).mp hb)), if_neg hp]
  refine ⟨fun _ _ => rfl, hiff, htgt, ?_, ?_, ?_, ?_⟩
  · rw [htgt]; norm_num
  · rw [htgt]; norm_num
  · rw [htgt]; norm_num
  · intro p hp
    rw [htgt, if_neg]
    rintro ⟨h0, h100⟩
    rcases hp with hp | hp
    · exact absurd (lt_of_lt_of_le h0 hp) (lt_irrefl _)
    · exact absurd (lt_of_le_of_lt hp h100) (lt_irrefl _)

/-- C3 witness: the routing theorem applied at progress values 0, 100, 50 and
the out-of-range value -5. -/
theorem setProgress_routing_witness :
    setProgress 7 (-5) = -5 ∧ targetSpeedOf 0 = 0.001 ∧
    targetSpeedOf 100 = 0.001 ∧ targetSpeedOf 50 = 0.05 ∧
    targetSpeedOf (-5) = 0.001 := by
  have h := setProgress_routing
  exact ⟨h.1 7 (-5), h.2.2.2.1, h.2.2.2.2.1, h.2.2.2.2.2.1,
    h.2.2.2.2.2.2 (-5) (Or.inl (by norm_num))⟩

/-- The frame interval is positive (it equals 50/3 ms). -/
lemma fpsInterval_pos : (0 : ℚ) < fpsInterval := by
  norm_num [fpsInterval, fps]

/-- On nonnegative input, the JavaScript remainder by a positive modulus is
nonnegative. -/
lemma jsMod_nonneg {x y : ℚ} (hy : 0 < y) (hx : 0 ≤ x) : 0 ≤ jsMod x y := by
  unfold jsMod ratTrunc
  rw [if_pos (div_nonneg hx hy.le)]
  have h := Int.floor_le (x / y)
  have h2 : (⌊x / y⌋ : ℚ) * y ≤ x / y * y := mul_le_mul_of_nonneg_right h hy.le
  rw [div_mul_cancel₀ x (ne_of_gt hy)] at h2
  linarith

/-- On nonnegative input, the JavaScript remainder by a positive modulus is
strictly below the modulus. -/
lemma jsMod_lt {x y : ℚ} (hy : 0 < y) (hx : 0 ≤ x) : jsMod x y < y := by
  unfold jsMod ratTrunc
  rw [if_pos (div_nonneg hx hy.le)]
  have h := Int.lt_floor_add_one (x / y)
  have h2 : x / y * y < ((⌊x / y⌋ : ℚ) + 1) * y := mul_lt_mul_of_pos_right h hy
  rw [div_mul_cancel₀ x (ne_of_gt hy)] at h2
  nlinarith

/-- When the elapsed time does not exceed the interval, `animate` only
reschedules. -/
lemma animateStep_skip (t now : ℚ) (h : now - t ≤ fpsInterval) :
    animateStep t now = ⟨true, t, false⟩ := by
  simp only [animateStep]
  rw [if_neg (not_lt.mpr h)]

/-- When the elapsed time strictly exceeds the interval, `animate` does the
work and rebases `then`. -/
lemma animateStep_work (t now : ℚ) (h : fpsInterval < now - t) :
    animateStep t now = ⟨true, now - jsMod (now - t) fpsInterval, true⟩ := by
  simp only [animateStep]
  rw [if_pos h]

/-- The `then` field advances by at least `fpsInterval` on a working
callback, and never decreases. -/
lemma animateStep_then_ge (t now : ℚ) :
    t + (if (animateStep t now).workDone then fpsInterval else 0) ≤
      (animateStep t now).thenTime := by
  by_cases h : fpsInterval < now - t
  · rw [animateStep_work t now h]
    have hI := fpsInterval_pos
    have he : (0 : ℚ) ≤ now - t := le_of_lt (lt_trans hI h)
    have h1 : (1 : ℚ) ≤ (now - t) / fpsInterval :=
      le_of_lt ((one_lt_div hI).mpr h)
    have h2 : (1 : ℤ) ≤ ⌊(now - t) / fpsInterval⌋ :=
      Int.le_floor.mpr (by exact_mod_cast h1)
    have h3 : (1 : ℚ) ≤ (⌊(now - t) / fpsInterval⌋ : ℚ) := by exact_mod_cast h2
    have h4 : fpsInterval * 1 ≤ fpsInterval * (⌊(now - t) / fpsInterval⌋ : ℚ) :=
      mul_le_mul_of_nonneg_left h3 hI.le
    simp only [if_pos]
    unfold jsMod ratTrunc
    rw [if_pos (div_nonneg he hI.le)]
    linarith
  · rw [animateStep_skip t now (not_lt.mp h)]
    simp

/-- The `then` field stays below any bound dominating both its old value and
the current time. -/
lemma animateStep_then_le (t now B : ℚ) (ht : t ≤ B) (hn : now ≤ B) :
    (animateStep t now).thenTime ≤ B := by
  by_cases h : fpsInterval < now - t
  · rw [animateStep_work t now h]
    have he : (0 : ℚ) ≤ now - t := le_of_lt (lt_trans fpsInterval_pos h)
    have := jsMod_nonneg fpsInterval_pos he
    simp only
    linarith
  · rw [animateStep_skip t now (not_lt.mp h)]
    exact ht

/-- Over any run, the final `then` field is at least the initial one plus
`fpsInterval` for every callback on which the work ran. -/
lemma runSched_then_ge (ts : List ℚ) :
    ∀ t : ℚ, t + ((runSched t ts).2 : ℚ) * fpsInterval ≤ (runSched t ts).1 := by
  induction ts with
  | nil => intro t; simp [runSched]
  | cons a rest ih =>
    intro t
    have hstep := animateStep_then_ge t a
    have hrest := ih (animateStep t a).thenTime
    show t + (((if (animateStep t a).workDone then 1 else 0) +
        (runSched (animateStep t a).thenTime rest).2 : ℕ) : ℚ) * fpsInterval ≤
      (runSched (animateStep t a).thenTime rest).1
    by_cases hw : (animateStep t a).workDone = true
    · simp only [hw, if_true] at hstep ⊢
      push_cast
      linarith
    · rw [Bool.not_eq_true] at hw
      simp only [hw, Bool.false_eq_true, if_false] at hstep ⊢
      push_cast
      linarith

/-- Over any run whose callback times all stay below a bound that also
dominates the initial `then`, the final `then` stays below that bound. -/
lemma runSched_then_le (ts : List ℚ) :
    ∀ t B : ℚ, t ≤ B → (∀ x ∈ ts, x ≤ B) → (runSched t ts).1 ≤ B := by
  induction ts with
  | nil => intro t B ht _; simpa [runSched] using ht
  | cons a rest ih =>
    intro t B ht hts
    have ha : a ≤ B := hts a (List.mem_cons_self a rest)
    have hstep := animateStep_then_le t a B ht ha
    simpa [runSched] using
      ih (animateStep t a).thenTime B hstep (fun x hx => hts x (List.mem_cons_of_mem a hx))

/-- C4 counterexample: the gate condition is `elapsed > fpsInterval`
(strict), not `elapsed ≥ fpsInterval` as the claim's "otherwise" reading
requires. Starting from `then = 0`, callbacks at 17 and 35 (both doing work)
rebase `then` to 100/3; a callback at time 50 then sees
`elapsed = 50 - 100/3 = 50/3 = fpsInterval` exactly, which is not
`< fpsInterval`, yet the frame work is skipped and `then` is unchanged. -/
theorem animate_gate_boundary_counterexample :
    (runSched 0 [17, 35]).1 = 100 / 3 ∧
    (runSched 0 [17, 35]).2 = 2 ∧
    ¬ ((50 : ℚ) - (100 / 3) < fpsInterval) ∧
    (animateStep (100 / 3) 50).workDone = false ∧
    (animateStep (100 / 3) 50).thenTime = 100 / 3 := by
  refine ⟨?_, ?_, ?_, ?_, ?_⟩ <;>
    norm_num [runSched, animateStep, jsMod, ratTrunc, fpsInterval, fps]

/-- C4 (amended): on every scheduler callback with
`elapsed = now - lastFireTime`: the next callback is rescheduled
unconditionally; if `elapsed ≤ fpsInterval` (in particular whenever
`elapsed < fpsInterval`, but also at exact equality) the frame's work is
skipped and the timer base is unchanged; if `elapsed > fpsInterval`
(strictly) the work is performed and the timer base is set to
`now - (elapsed mod fpsInterval)`. -/
theorem animate_gate_spec (t now : ℚ) :
    (animateStep t now).nextScheduled = true ∧
    (now - t ≤ fpsInterval → animateStep t now = ⟨true, t, false⟩) ∧
    (fpsInterval < now - t →
      animateStep t now = ⟨true, now - jsMod (now - t) fpsInterval, true⟩) := by
  refine ⟨?_, animateStep_skip t now, animateStep_work t now⟩
  by_cases h : fpsInterval < now - t
  · rw [animateStep_work t now h]
  · rw [animateStep_skip t now (not_lt.mp h)]

/-- C4 witness: at `then = 0` a callback at time 10 is within the interval
and only reschedules, while a callback at time 17 exceeds it, does the work
and rebases the timer. -/
theorem animate_gate_spec_witness :
    (animateStep 0 10).nextScheduled = true ∧
    animateStep 0 10 = ⟨true, 0, false⟩ ∧
    animateStep 0 17 = ⟨true, 17 - jsMod 17 fpsInterval, true⟩ := by
  refine ⟨(animate_gate_spec 0 10).1, ?_, ?_⟩
  · have h := (animate_gate_spec 0 10).2.1 (by norm_num [fpsInterval, fps])
    simpa using h
  · have h := (animate_gate_spec 0 17).2.2 (by norm_num [fpsInterval, fps])
    simpa using h

/-- C5: for every initial timer base and every list of simulated callback
times confined to a span of length `T ≥ 0` after the base, the number of
callbacks on which the frame work runs satisfies
`count * fpsInterval ≤ T` — i.e. the gate bounds the processing rate to at
most 60 executions per second of simulated callback time — and in particular
over a 100 ms span (such as a callback firing every 8 ms for 100 ms) the
work runs at most ⌈100/16.67⌉ = 6 times. -/
theorem sched_rate_bound (t₀ T : ℚ) (ts : List ℚ) (hT : 0 ≤ T)
    (hts : ∀ x ∈ ts, x ≤ t₀ + T) :
    ((runSched t₀ ts).2 : ℚ) * fpsInterval ≤ T ∧
    (T ≤ 100 → (runSched t₀ ts).2 ≤ 6) := by
  have h1 := runSched_then_ge ts t₀
  have h2 := runSched_then_le ts t₀ (t₀ + T) (by linarith) hts
  have hbound : ((runSched t₀ ts).2 : ℚ) * fpsInterval ≤ T := by linarith
  refine ⟨hbound, fun hT100 => ?_⟩
  have hI : fpsInterval = 50 / 3 := by norm_num [fpsInterval, fps]
  rw [hI] at hbound
  have hq : ((runSched t₀ ts).2 : ℚ) ≤ 6 := by linarith
  exact_mod_cast hq

/-- C5 witness: the scheduler driven by callbacks every 8 ms over the span
[0, 100] starting from timer base 0 does the frame work at most 6 times. -/
theorem sched_rate_bound_witness :
    ((runSched 0 [8, 16, 24, 32, 40, 48, 56, 64, 72, 80, 88, 96]).2 : ℚ) *
      fpsInterval ≤ 100 ∧
    (runSched 0 [8, 16, 24, 32, 40, 48, 56, 64, 72, 80, 88, 96]).2 ≤ 6 := by
  have h := sched_rate_bound 0 100 [8, 16, 24, 32, 40, 48, 56, 64, 72, 80, 88, 96]
    (by norm_num) (by intro x hx; fin_cases hx <;> norm_num)
  exact ⟨h.1, h.2 (le_refl 100)⟩

/-- C6: the branch angle is 3-periodic in the particle index: for every `i`
with `i` and `i + 3` both below the particle count,
`branchAngle (i + 3) = branchAngle i`, since the angle is
`(i % 3) * (2π/3)`. -/
theorem branchAngle_period_three (i : ℕ) (_h : i + 3 < particleCount) :
    branchAngle (i + 3) = branchAngle i := by
  unfold branchAngle
  rw [Nat.add_mod_right]

/-- C6 witness: the periodicity at index 0. -/
theorem branchAngle_period_three_witness :
    0 + 3 < particleCount ∧ branchAngle (0 + 3) = branchAngle 0 :=
  ⟨by norm_num [particleCount],
   branchAngle_period_three 0 (by norm_num [particleCount])⟩

/-- C7: for every particle generated with all uniform draws in [0,1), the
radius lies in [0, 200], the size lies in [0, 2], the color is the linear
interpolation of the inner color toward the outer color by the factor
`radius / 200`, and that factor lies in [0, 1]. -/
theorem particle_ranges (i : ℕ) (d : ParticleRand) (hd : ParticleRandValid d) :
    0 ≤ (genParticle i d).radius ∧ (genParticle i d).radius ≤ 200 ∧
    0 ≤ (genParticle i d).size ∧ (genParticle i d).size ≤ 2 ∧
    (genParticle i d).color =
      lerpColor colorInside colorOutside ((genParticle i d).radius / 200) ∧
    0 ≤ (genParticle i d).radius / 200 ∧ (genParticle i d).radius / 200 ≤ 1 := by
  obtain ⟨⟨hr0, hr1⟩, _, _, _, _, _, _, _, hs0, hs1⟩ := hd
  refine ⟨?_, ?_, ?_, ?_, rfl, ?_, ?_⟩ <;> simp only [genParticle]
  · linarith
  · linarith
  · linarith
  · linarith
  · exact div_nonneg (by linarith) (by norm_num)
  · rw [div_le_one (by norm_num : (0 : ℚ) < 200)]
    linarith

/-- C7 witness: the range facts at index 0 with every draw equal to 1/2. -/
theorem particle_ranges_witness :
    0 ≤ (genParticle 0 ⟨1/2, 1/2, 1/2, 1/2, 1/2, 1/2, 1/2, 1/2, 1/2⟩).radius ∧
    (genParticle 0 ⟨1/2, 1/2, 1/2, 1/2, 1/2, 1/2, 1/2, 1/2, 1/2⟩).radius ≤ 200 ∧
    0 ≤ (genParticle 0 ⟨1/2, 1/2, 1/2, 1/2, 1/2, 1/2, 1/2, 1/2, 1/2⟩).size ∧
    (genParticle 0 ⟨1/2, 1/2, 1/2, 1/2, 1/2, 1/2, 1/2, 1/2, 1/2⟩).size ≤ 2 ∧
    (genParticle 0 ⟨1/2, 1/2, 1/2, 1/2, 1/2, 1/2, 1/2, 1/2, 1/2⟩).color =
      lerpColor colorInside colorOutside
        ((genParticle 0 ⟨1/2, 1/2, 1/2, 1/2, 1/2, 1/2, 1/2, 1/2, 1/2⟩).radius / 200) ∧
    0 ≤ (genParticle 0 ⟨1/2, 1/2, 1/2, 1/2, 1/2, 1/2, 1/2, 1/2, 1/2⟩).radius / 200 ∧
    (genParticle 0 ⟨1/2, 1/2, 1/2, 1/2, 1/2, 1/2, 1/2, 1/2, 1/2⟩).radius / 200 ≤ 1 :=
  particle_ranges 0 ⟨1/2, 1/2, 1/2, 1/2, 1/2, 1/2, 1/2, 1/2, 1/2⟩
    (by norm_num [ParticleRandValid, UnitRand])

/-- C8: a raw mousemove event updates the stored state iff at least 16 ms
elapsed since the last accepted update: an event with `now - last < 16` is
dropped, one with `now - last ≥ 16` stores `last = now`,
`mouseX = (clientX/width)*2 - 1` and `mouseY = -(clientY/height)*2 + 1`;
consequently two events 5 ms apart (the first accepted) produce exactly one
update and two events 20 ms apart produce two. -/
theorem mouseMove_throttle_spec :
    (∀ (s : MouseState) (now cx cy w h : ℚ),
      (now - s.last < 16 → onMouseMove s now cx cy w h = s) ∧
      (16 ≤ now - s.last →
        onMouseMove s now cx cy w h =
          ⟨now, cx / w * 2 - 1, -(cy / h) * 2 + 1⟩)) ∧
    (∀ (s : MouseState) (t cx₁ cy₁ cx₂ cy₂ w h : ℚ), 16 ≤ t - s.last →
      onMouseMove (onMouseMove s t cx₁ cy₁ w h) (t + 5) cx₂ cy₂ w h =
          onMouseMove s t cx₁ cy₁ w h ∧
      onMouseMove (onMouseMove s t cx₁ cy₁ w h) (t + 20) cx₂ cy₂ w h =
          ⟨t + 20, cx₂ / w * 2 - 1, -(cy₂ / h) * 2 + 1⟩) := by
  have hrej : ∀ (s : MouseState) (now cx cy w h : ℚ), now - s.last < 16 →
      onMouseMove s now cx cy w h = s := by
    intro s now cx cy w h hlt
    unfold onMouseMove MOUSE_MOVE_THROTTLE_MS
    rw [if_pos hlt]
  have hacc : ∀ (s : MouseState) (now cx cy w h : ℚ), 16 ≤ now - s.last →
      onMouseMove s now cx cy w h =
        ⟨now, cx / w * 2 - 1, -(cy / h) * 2 + 1⟩ := by
    intro s now cx cy w h hge
    unfold onMouseMove MOUSE_MOVE_THROTTLE_MS
    rw [if_neg (not_lt.mpr hge)]
  refine ⟨fun s now cx cy w h => ⟨hrej s now cx cy w h, hacc s now cx cy w h⟩,
    fun s t cx₁ cy₁ cx₂ cy₂ w h hge => ?_⟩
  have h1 := hacc s t cx₁ cy₁ w h hge
  constructor
  · rw [h1]
    apply hrej
    show t + 5 - t < 16
    linarith
  · rw [h1]
    apply hacc
    show 16 ≤ t + 20 - t
    linarith

/-- C8 witness: from a fresh state, an event at 5 ms is dropped, one at
16 ms is accepted and normalizes a centered pointer to (0, 0), a follower
5 ms later is dropped and a follower 20 ms later is accepted. -/
theorem mouseMove_throttle_spec_witness :
    onMouseMove ⟨0, 0, 0⟩ 5 50 50 100 100 = ⟨0, 0, 0⟩ ∧
    onMouseMove ⟨0, 0, 0⟩ 16 50 50 100 100 =
      ⟨16, 50 / 100 * 2 - 1, -(50 / 100) * 2 + 1⟩ ∧
    onMouseMove (onMouseMove ⟨0, 0, 0⟩ 16 50 50 100 100) 21 50 50 100 100 =
      onMouseMove ⟨0, 0, 0⟩ 16 50 50 100 100 ∧
    onMouseMove (onMouseMove ⟨0, 0, 0⟩ 16 50 50 100 100) 36 50 50 100 100 =
      ⟨36, 50 / 100 * 2 - 1, -(50 / 100) * 2 + 1⟩ := by
  have hpair := (mouseMove_throttle_spec.2 ⟨0, 0, 0⟩ 16 50 50 50 50 100 100
    (by norm_num))
  refine ⟨(mouseMove_throttle_spec.1 ⟨0, 0, 0⟩ 5 50 50 100 100).1 (by norm_num),
    (mouseMove_throttle_spec.1 ⟨0, 0, 0⟩ 16 50 50 100 100).2 (by norm_num),
    ?_, ?_⟩
  · have h := hpair.1
    norm_num at h ⊢
    exact h
  · have h := hpair.2
    norm_num at h ⊢
    exact h

/-- The target speed is always one of the two constants 0.05 and 0.001. -/
lemma targetSpeedOf_bounds (p : ℚ) :
    0.001 ≤ targetSpeedOf p ∧ targetSpeedOf p ≤ 0.05 := by
  unfold targetSpeedOf
  split <;> norm_num

/-- One frame update keeps the smoothed speed inside [0.001, 0.05]. -/
lemma updateMotion_speed_bounds (s : MotionState) (p : ℚ)
    (h : 0.001 ≤ s.speed ∧ s.speed ≤ 0.05) :
    0.001 ≤ (updateMotion s p).speed ∧ (updateMotion s p).speed ≤ 0.05 := by
  obtain ⟨h1, h2⟩ := h
  obtain ⟨t1, t2⟩ := targetSpeedOf_bounds p
  simp only [updateMotion]
  constructor <;> linarith

/-- Any run of frame updates keeps the smoothed speed inside [0.001, 0.05]. -/
lemma runMotion_speed_bounds (ps : List ℚ) :
    ∀ s : MotionState, 0.001 ≤ s.speed ∧ s.speed ≤ 0.05 →
      0.001 ≤ (runMotion s ps).speed ∧ (runMotion s ps).speed ≤ 0.05 := by
  induction ps with
  | nil => intro s h; simpa [runMotion] using h
  | cons p rest ih =>
    intro s h
    simpa [runMotion] using
      ih (updateMotion s p) (updateMotion_speed_bounds s p h)

/-- C9: on every gate-open frame update the speed is smoothed as
`currentSpeed += (targetSpeed - currentSpeed) * 0.05` and the mesh's
vertical-axis rotation accumulates by exactly the new speed; consequently,
along every run from the initial state the vertical-axis rotation angle
strictly increases at every frame. -/
theorem rotation_monotone_and_smoothing :
    (∀ (s : MotionState) (p : ℚ),
      updateMotion s p =
        ⟨s.speed + (targetSpeedOf p - s.speed) * 0.05,
         s.rotY + (s.speed + (targetSpeedOf p - s.speed) * 0.05)⟩) ∧
    (∀ (ps : List ℚ) (p : ℚ),
      (runMotion initMotion ps).rotY <
        (runMotion initMotion (ps ++ [p])).rotY) := by
  refine ⟨fun s p => rfl, fun ps p => ?_⟩
  obtain ⟨h1, h2⟩ := runMotion_speed_bounds ps initMotion (by norm_num [initMotion])
  obtain ⟨t1, t2⟩ := targetSpeedOf_bounds p
  have hrun : runMotion initMotion (ps ++ [p]) =
      updateMotion (runMotion initMotion ps) p := by
    simp [runMotion]
  rw [hrun]
  simp only [updateMotion]
  linarith

/-- C10: starting from the initial value 0.001, the smoothed rotation speed
stays inside the closed interval [0.001, 0.05] after every frame update, for
every sequence of stored progress values (hence for every interleaving of
`setProgress` calls with frames). -/
theorem rotationSpeed_invariant (ps : List ℚ) :
    0.001 ≤ (runMotion initMotion ps).speed ∧
    (runMotion initMotion ps).speed ≤ 0.05 :=
  runMotion_speed_bounds ps initMotion (by norm_num [initMotion])

end ParticleService
